import Mathlib

/-!
Verification of the Treasure-Gym charge-and-jump game core.

The gameplay simulation is embedded shallowly over `ℚ`:
`Player` (src/player.js), `Platform` (src/platform.js),
`Camera` (the zoomed camera), `PMConfig`/`newPlatform`/`spawnNext`
(src/platformmanager.js) and the gesture hysteresis step
(src/camera_input.js `_triggerInput`).
JavaScript `Math.round` coincides with Mathlib's `round` on `ℚ`
(both are `⌊x + 1/2⌋`), and `Math.min`/`Math.max` are `min`/`max`.
-/

namespace TreasureGym

/-- Axis-aligned platform box in world space (src/platform.js). -/
structure Platform where
  worldX : ℚ
  worldY : ℚ
  width : ℚ
  height : ℚ
  landed : Bool
deriving DecidableEq

/-- `get top() { return this.worldY; }` -/
def Platform.top (p : Platform) : ℚ := p.worldY

/-- `get left() { return this.worldX; }` -/
def Platform.left (p : Platform) : ℚ := p.worldX

/-- `get right() { return this.worldX + this.width; }` -/
def Platform.right (p : Platform) : ℚ := p.worldX + p.width

/-- Player state (src/player.js constructor fields). -/
structure Player where
  worldX : ℚ
  worldY : ℚ
  width : ℚ
  height : ℚ
  vx : ℚ
  vy : ℚ
  isOnGround : Bool
  isDead : Bool
  isCharging : Bool
  chargeTime : ℚ
deriving DecidableEq

namespace Player

/-- `this.gravity = 1400` -/
def gravity : ℚ := 1400

/-- `this.minVx = 260` -/
def minVx : ℚ := 260

/-- `this.maxVx = 700` -/
def maxVx : ℚ := 700

/-- `this.minVy = -500` -/
def minVy : ℚ := -500

/-- `this.maxVy = -880` -/
def maxVy : ℚ := -880

/-- `this.maxCharge = 1.5` -/
def maxCharge : ℚ := 3 / 2

/-- `new Player(worldX, worldY)`: 32×48 box, zero velocity, airborne,
alive, not charging. -/
def init (x y : ℚ) : Player :=
  { worldX := x, worldY := y, width := 32, height := 48, vx := 0, vy := 0,
    isOnGround := false, isDead := false, isCharging := false, chargeTime := 0 }

/-- `get bottom() { return this.worldY + this.height; }` -/
def bottom (s : Player) : ℚ := s.worldY + s.height

/-- `get left() { return this.worldX; }` -/
def left (s : Player) : ℚ := s.worldX

/-- `get right() { return this.worldX + this.width; }` -/
def right (s : Player) : ℚ := s.worldX + s.width

/-- `startCharge()`: no-op unless grounded and alive; otherwise sets the
charging flag and resets the accumulated charge time. -/
def startCharge (s : Player) : Player :=
  if s.isOnGround = false ∨ s.isDead = true then s
  else { s with isCharging := true, chargeTime := 0 }

/-- `releaseJump()`: guarded launch; returns the new state and whether the
jump was performed. -/
def releaseJump (s : Player) : Player × Bool :=
  if s.isCharging = false ∨ s.isOnGround = false ∨ s.isDead = true then (s, false)
  else
    let t := min s.chargeTime maxCharge / maxCharge
    ({ s with
        isCharging := false,
        vx := minVx + t * (maxVx - minVx),
        vy := minVy + t * (maxVy - minVy),
        isOnGround := false }, true)

/-- The landing test of `update`: horizontal overlap of the boxes after the
move, and the bottom edge crossing the platform's top during the move. -/
def landCheck (prevBottom : ℚ) (s : Player) (p : Platform) : Prop :=
  (p.left < s.right ∧ s.left < p.right) ∧ (prevBottom ≤ p.top ∧ p.top ≤ s.bottom)

instance (prevBottom : ℚ) (s : Player) (p : Platform) : Decidable (landCheck prevBottom s p) := by
  unfold landCheck
  infer_instance

/-- The `for (const platform of platforms)` loop of `update`: snap onto the
first platform passing `landCheck`, leave the state alone otherwise. -/
def collideScan (prevBottom : ℚ) (s : Player) : List Platform → Player
  | [] => s
  | p :: rest =>
    if landCheck prevBottom s p then
      { s with worldY := p.top - s.height, vy := 0, vx := 0, isOnGround := true }
    else collideScan prevBottom s rest

/-- The in-flight integration step of `update`:
`vy += gravity*dt; worldX += vx*dt; worldY += vy*dt`. -/
def integrate (dt : ℚ) (s : Player) : Player :=
  { s with
      vy := s.vy + gravity * dt,
      worldX := s.worldX + s.vx * dt,
      worldY := s.worldY + (s.vy + gravity * dt) * dt }

/-- `update(dt, platforms, worldHeight)` (src/player.js). -/
def update (dt : ℚ) (platforms : List Platform) (worldHeight : ℚ) (s : Player) : Player :=
  if s.isDead = true then s
  else
    let s1 := if s.isCharging = true then { s with chargeTime := s.chargeTime + dt } else s
    let s2 :=
      if s1.isOnGround = true then s1
      else
        let prevBottom := s1.bottom
        let s' := integrate dt s1
        if 0 ≤ s'.vy then collideScan prevBottom s' platforms else s'
    if s2.worldY > worldHeight + 100 then { s2 with isDead := true } else s2

/-- Player states reachable from a freshly constructed player by any
sequence of `startCharge`, `releaseJump` and `update` calls. -/
inductive Reachable : Player → Prop
  | init (x y : ℚ) : Reachable (Player.init x y)
  | charge {s : Player} : Reachable s → Reachable s.startCharge
  | jump {s : Player} : Reachable s → Reachable s.releaseJump.1
  | step {s : Player} (dt : ℚ) (ps : List Platform) (wh : ℚ) :
      Reachable s → Reachable (update dt ps wh s)

/-- Horizontal distance covered before returning to launch height,
`vx · (2·|vy|/gravity)` (spec §8 projectile range formula). -/
def jumpRange (vx vy g : ℚ) : ℚ := vx * (2 * |vy| / g)

end Player

/-- Camera with zoom (the `Camera` class taking `canvasWidth, canvasHeight,
referenceWidth`). -/
structure Camera where
  canvasWidth : ℚ
  canvasHeight : ℚ
  scale : ℚ
  followOffsetX : ℚ
  x : ℚ
  y : ℚ
deriving DecidableEq

namespace Camera

/-- `new Camera(canvasWidth, canvasHeight, referenceWidth)`:
`scale = canvasWidth / referenceWidth`, `followOffsetX = canvasWidth * 0.3`,
left edge at world origin. -/
def init (canvasWidth canvasHeight referenceWidth : ℚ) : Camera :=
  { canvasWidth := canvasWidth, canvasHeight := canvasHeight,
    scale := canvasWidth / referenceWidth,
    followOffsetX := canvasWidth * (3 / 10), x := 0, y := 0 }

/-- `follow(worldX)`: `this.x = worldX - (this.followOffsetX / this.scale)`. -/
def follow (c : Camera) (worldX : ℚ) : Camera :=
  { c with x := worldX - c.followOffsetX / c.scale }

/-- `toScreenX(worldX) = (worldX - this.x) * this.scale`. -/
def toScreenX (c : Camera) (worldX : ℚ) : ℚ := (worldX - c.x) * c.scale

/-- `toScreenY(worldY) = worldY * this.scale`. -/
def toScreenY (c : Camera) (worldY : ℚ) : ℚ := worldY * c.scale

end Camera

/-- Events delivered by the gesture decoder to the input handler:
`triggerPress("Space")` and `triggerRelease("Space")`. -/
inductive GEvent where
  | press : GEvent
  | release : GEvent
deriving DecidableEq

/-- One `_triggerInput()` pass of CameraInput: given the arms-closed flag and
the current openness value (`none` when tracking is lost), return the new
flag and the emitted event, if any. -/
def gestureStep (closedT openT : ℚ) (armsClosed : Bool) (r : Option ℚ) : Bool × Option GEvent :=
  match r with
  | none => (armsClosed, none)
  | some v =>
    if armsClosed = false ∧ v < closedT then (true, some GEvent.press)
    else if armsClosed = true ∧ openT < v then (false, some GEvent.release)
    else (armsClosed, none)

/-- Fold `gestureStep` over a sample sequence, collecting the per-sample
emitted event (`none` at indices that emit nothing) and the final flag. -/
def gestureRun (closedT openT : ℚ) : Bool → List (Option ℚ) → List (Option GEvent) × Bool
  | st, [] => ([], st)
  | st, r :: rest =>
    let step := gestureStep closedT openT st r
    let next := gestureRun closedT openT step.1 rest
    (step.2 :: next.1, next.2)

/-- Derived geometry constants of PlatformManager
(`this.config` in the constructor). -/
structure PMConfig where
  platformWidth : ℚ
  platformHeight : ℚ
  minGapX : ℚ
  maxGapX : ℚ
  minGapY : ℚ
  maxGapY : ℚ
  floorY : ℚ
  minY : ℚ
deriving DecidableEq

namespace PlatformManager

/-- The PlatformManager constructor's config derivation from the effective
visible world size `worldW = canvasWidth/scale`, `worldH = canvasHeight/scale`. -/
def mkConfig (canvasWidth canvasHeight camScale : ℚ) : PMConfig :=
  let worldW := canvasWidth / camScale
  let worldH := canvasHeight / camScale
  { platformWidth := ((round (worldW * (18 / 100)) : ℤ) : ℚ),
    platformHeight := 16,
    minGapX := ((round (worldW * (22 / 100)) : ℤ) : ℚ),
    maxGapX := ((round (worldW * (40 / 100)) : ℤ) : ℚ),
    minGapY := -((round (worldH * (15 / 100)) : ℤ) : ℚ),
    maxGapY := ((round (worldH * (15 / 100)) : ℤ) : ℚ),
    floorY := ((round (worldH * (82 / 100)) : ℤ) : ℚ),
    minY := ((round (worldH * (12 / 100)) : ℤ) : ℚ) }

/-- The platform built by `_spawnNext` from the previous (last) platform and
the two uniform draws `r1, r2 ∈ [0,1)` of `Math.random()`:
`gapX = minGapX + r1·(maxGapX−minGapX)`, `gapY = minGapY + r2·(maxGapY−minGapY)`,
`x = last.right + gapX`, `y = max(minY, min(floorY, last.worldY + gapY))`. -/
def newPlatform (cfg : PMConfig) (last : Platform) (r1 r2 : ℚ) : Platform :=
  let gapX := cfg.minGapX + r1 * (cfg.maxGapX - cfg.minGapX)
  let gapY := cfg.minGapY + r2 * (cfg.maxGapY - cfg.minGapY)
  { worldX := last.right + gapX,
    worldY := max cfg.minY (min cfg.floorY (last.worldY + gapY)),
    width := cfg.platformWidth,
    height := cfg.platformHeight,
    landed := false }

/-- `_spawnNext()`: append the platform spawned off the list's last element.
(On an empty list the JS code would fault reading `_last()`; that branch is
never exercised below.) -/
def spawnNext (cfg : PMConfig) (r1 r2 : ℚ) (ps : List Platform) : List Platform :=
  match ps.getLast? with
  | none => ps
  | some last => ps ++ [newPlatform cfg last r1 r2]

/-- Run `_spawnNext` `k` times, drawing the `i`-th pair of `Math.random()`
values from the stream `rs`. -/
def spawnN (cfg : PMConfig) (rs : ℕ → ℚ × ℚ) : ℕ → List Platform → List Platform
  | 0, ps => ps
  | Nat.succ k, ps => spawnN cfg (fun i => rs (i + 1)) k (spawnNext cfg (rs 0).1 (rs 0).2 ps)

/-- World X of the last platform (`this._last().worldX`); junk `0` on the
empty list, which the JS code would fault on. -/
def lastX (ps : List Platform) : ℚ := (ps.getLast?.map Platform.worldX).getD 0

/-- PlatformManager state: the stored canvas size, the derived config and
the current platform list. -/
structure PMState where
  canvasWidth : ℚ
  canvasHeight : ℚ
  config : PMConfig
  platforms : List Platform

/-- `update(camera)` as a relation between the pre-state and the resulting
platform list: first prune (`filter p.right > camera.x - 200`), then run the
`while (_last().worldX < camera.x + visibleWorldWidth + 600) _spawnNext()`
loop; `k` counts its iterations. The relation holds exactly for the list the
completed call leaves behind (it requires the pruned list to be non-empty,
since otherwise the JS loop faults reading `_last()`). -/
def updateRel (m : PMState) (cam : Camera) (rs : ℕ → ℚ × ℚ) (result : List Platform) : Prop :=
  let pruned := m.platforms.filter fun p => decide (cam.x - 200 < p.right)
  let target := cam.x + m.canvasWidth / cam.scale + 600
  pruned ≠ [] ∧
  ∃ k : ℕ,
    result = spawnN m.config rs k pruned ∧
    ¬ lastX (spawnN m.config rs k pruned) < target ∧
    ∀ j < k, lastX (spawnN m.config rs j pruned) < target

end PlatformManager

/-! ## Theorems -/

/-- The collision loop snaps onto the first platform in iteration order
passing `landCheck` and stops there. -/
theorem collideScan_first (pb : ℚ) (s : Player) (l1 l2 : List Platform) (q : Platform)
    (hmiss : ∀ p ∈ l1, ¬ Player.landCheck pb s p) (hhit : Player.landCheck pb s q) :
    Player.collideScan pb s (l1 ++ q :: l2)
      = { s with worldY := q.top - s.height, vy := 0, vx := 0, isOnGround := true } := by
  induction l1 with
  | nil => simp [Player.collideScan, hhit]
  | cons p rest ih =>
    have hp : ¬ Player.landCheck pb s p := hmiss p (List.mem_cons_self p rest)
    rw [List.cons_append]
    simp only [Player.collideScan, if_neg hp]
    exact ih fun r hr => hmiss r (List.mem_cons_of_mem p hr)

/-- C2: `releaseJump` succeeds iff charging, grounded and alive; on success
it interpolates `vx`/`vy` linearly by `t = min(chargeTime, maxCharge)/maxCharge`,
clears the charging and grounded flags, and returns `true`; the launch
velocities for charge time `c` coincide with those for
`min(c, maxCharge)`. -/
theorem releaseJump_charge_spec (s : Player) :
    (s.releaseJump.2 = true ↔ s.isCharging = true ∧ s.isOnGround = true ∧ s.isDead = false)
    ∧ (s.isCharging = true → s.isOnGround = true → s.isDead = false →
        s.releaseJump =
          ({ s with
              isCharging := false,
              vx := Player.minVx +
                min s.chargeTime Player.maxCharge / Player.maxCharge * (Player.maxVx - Player.minVx),
              vy := Player.minVy +
                min s.chargeTime Player.maxCharge / Player.maxCharge * (Player.maxVy - Player.minVy),
              isOnGround := false }, true))
    ∧ (∀ c : ℚ,
        ({ s with chargeTime := c } : Player).releaseJump.1.vx
            = ({ s with chargeTime := min c Player.maxCharge } : Player).releaseJump.1.vx
          ∧ ({ s with chargeTime := c } : Player).releaseJump.1.vy
            = ({ s with chargeTime := min c Player.maxCharge } : Player).releaseJump.1.vy) := by
  obtain ⟨x, y, w, h, vx, vy, g, d, ch, ct⟩ := s
  refine ⟨?_, ?_, ?_⟩
  · cases ch <;> cases g <;> cases d <;> simp [Player.releaseJump]
  · intro h1 h2 h3
    subst h1; subst h2; subst h3
    simp [Player.releaseJump]
  · intro c
    cases ch <;> cases g <;> cases d <;>
      simp [Player.releaseJump, min_assoc, min_self]

/-- C2 witness: a grounded charging player with charge time 2 (beyond the
1.5 s cap) launches at exactly `(vx, vy) = (700, -880)`. -/
theorem releaseJump_charge_spec_witness :
    (⟨0, 0, 32, 48, 0, 0, true, false, true, 2⟩ : Player).releaseJump
      = (⟨0, 0, 32, 48, 700, -880, false, false, false, 2⟩, true) := by
  have h := (releaseJump_charge_spec ⟨0, 0, 32, 48, 0, 0, true, false, true, 2⟩).2.1 rfl rfl rfl
  rw [h]
  norm_num [Player.minVx, Player.maxVx, Player.minVy, Player.maxVy, Player.maxCharge]

/-- C5: `releaseJump` outside the legal state (not charging, or airborne, or
dead) returns `false` and leaves the whole state unchanged. -/
theorem releaseJump_reject_noop (s : Player)
    (h : s.isCharging = false ∨ s.isOnGround = false ∨ s.isDead = true) :
    s.releaseJump = (s, false) := by
  unfold Player.releaseJump
  rw [if_pos h]

/-- C5 witness: an airborne mid-flight player is left untouched. -/
theorem releaseJump_reject_noop_witness :
    (⟨0, 0, 32, 48, 9, 9, false, false, false, 0⟩ : Player).releaseJump
      = (⟨0, 0, 32, 48, 9, 9, false, false, false, 0⟩, false) :=
  releaseJump_reject_noop _ (Or.inr (Or.inl rfl))

/-- C10: `startCharge` on an already-charging, grounded, alive player resets
the accumulated charge time to zero, keeps the charging flag set, and leaves
every other field unchanged. -/
theorem startCharge_restarts (s : Player) (_hch : s.isCharging = true)
    (hg : s.isOnGround = true) (hd : s.isDead = false) :
    s.startCharge = { s with isCharging := true, chargeTime := 0 } := by
  unfold Player.startCharge
  rw [if_neg (by simp [hg, hd])]

/-- C10 witness: a charging player with 7 s of accumulated charge is reset
to 0 s, still charging, all else equal. -/
theorem startCharge_restarts_witness :
    (⟨0, 0, 32, 48, 0, 0, true, false, true, 7⟩ : Player).startCharge
      = ⟨0, 0, 32, 48, 0, 0, true, false, true, 0⟩ :=
  startCharge_restarts ⟨0, 0, 32, 48, 0, 0, true, false, true, 7⟩ rfl rfl rfl

/-- C6 counterexample: the dead-state invariant fails on the code — a player
that falls out of the world is marked dead with its fall velocity still
nonzero (`update` never zeroes `vx`/`vy` when setting `isDead`). -/
theorem deadInvariant_counterexample :
    ¬ (∀ s : Player, Player.Reachable s → s.isDead = true →
        s.vx = 0 ∧ s.vy = 0 ∧ s.isCharging = false) := by
  intro hinv
  have heval : Player.update 1 [] 500 (Player.init 0 0)
      = ⟨0, 1400, 32, 48, 0, 1400, false, true, false, 0⟩ := by
    norm_num [Player.update, Player.init, Player.integrate, Player.collideScan,
      Player.bottom, Player.gravity]
  have hr : Player.Reachable (Player.update 1 [] 500 (Player.init 0 0)) :=
    Player.Reachable.step 1 [] 500 (Player.Reachable.init 0 0)
  rw [heval] at hr
  have h2 := hinv _ hr rfl
  exact absurd h2.2.1 (by norm_num)

/-- C6 amended: dead states are absorbing — once `isDead` holds,
`startCharge`, `releaseJump` and `update` (for any arguments) leave the
state entirely unchanged; the velocity held at the moment of death is
frozen but need not be zero. -/
theorem dead_state_absorbing (s : Player) (h : s.isDead = true) :
    s.startCharge = s ∧ s.releaseJump = (s, false) ∧
    ∀ (dt : ℚ) (ps : List Platform) (wh : ℚ), Player.update dt ps wh s = s := by
  refine ⟨?_, ?_, ?_⟩
  · unfold Player.startCharge
    rw [if_pos (Or.inr h)]
  · unfold Player.releaseJump
    rw [if_pos (Or.inr (Or.inr h))]
  · intro dt ps wh
    unfold Player.update
    rw [if_pos h]

/-- C6 amended witness: a dead player with leftover velocity (5, 7) is left
unchanged by all three operations. -/
theorem dead_state_absorbing_witness :
    (⟨0, 0, 32, 48, 5, 7, false, true, false, 0⟩ : Player).startCharge
        = ⟨0, 0, 32, 48, 5, 7, false, true, false, 0⟩
      ∧ (⟨0, 0, 32, 48, 5, 7, false, true, false, 0⟩ : Player).releaseJump
        = (⟨0, 0, 32, 48, 5, 7, false, true, false, 0⟩, false)
      ∧ Player.update 1 [] 0 ⟨0, 0, 32, 48, 5, 7, false, true, false, 0⟩
        = ⟨0, 0, 32, 48, 5, 7, false, true, false, 0⟩ := by
  have h := dead_state_absorbing ⟨0, 0, 32, 48, 5, 7, false, true, false, 0⟩ rfl
  exact ⟨h.1, h.2.1, h.2.2 1 [] 0⟩

/-- C8: camera round-trip — after any `follow`, converting a world X to
screen space and back via `screenX / scale + camera.x` recovers it exactly
over the rationals, for any positive scale. -/
theorem camera_roundTrip (c : Camera) (px wx : ℚ) (hs : 0 < c.scale) :
    (c.follow px).toScreenX wx / (c.follow px).scale + (c.follow px).x = wx := by
  have hne : c.scale ≠ 0 := ne_of_gt hs
  simp only [Camera.follow, Camera.toScreenX]
  field_simp

/-- C8 witness: the design camera (800-wide canvas, reference width 800,
scale 1) following world X 100 round-trips world X 42. -/
theorem camera_roundTrip_witness :
    ((Camera.init 800 600 800).follow 100).toScreenX 42
        / ((Camera.init 800 600 800).follow 100).scale
        + ((Camera.init 800 600 800).follow 100).x = 42 :=
  camera_roundTrip (Camera.init 800 600 800) 100 42 (by norm_num [Camera.init])

/-- C4: the hysteresis decoder, started open with thresholds 1.0 and 2.5,
emits exactly an engage at index 1 and a release at index 4 on the sample
sequence [1.5, 0.5, 0.5, 1.2, 2.6] and nothing elsewhere; dead-zone values
never change the arms-closed flag, and a missing signal changes nothing. -/
theorem gestureDecoder_hysteresis :
    (gestureRun 1 (5 / 2) false
          [some (3 / 2), some (1 / 2), some (1 / 2), some (6 / 5), some (13 / 5)]).1
        = [none, some GEvent.press, none, none, some GEvent.release]
    ∧ (∀ (closedT openT v : ℚ) (st : Bool), closedT ≤ v → v ≤ openT →
        gestureStep closedT openT st (some v) = (st, none))
    ∧ (∀ (closedT openT : ℚ) (st : Bool), gestureStep closedT openT st none = (st, none)) := by
  refine ⟨by norm_num [gestureRun, gestureStep], ?_, ?_⟩
  · intro closedT openT v st h1 h2
    cases st <;> simp [gestureStep, not_lt.mpr h1, not_lt.mpr h2]
  · intro closedT openT st
    rfl

/-- C1: swept landing — an airborne, alive player whose bottom edge crosses
a platform's top during the step (pre-move bottom above-or-at the top,
post-move bottom at-or-below it) with horizontal overlap after the move
snaps to exactly `platform.top - height` with `vx = vy = 0` and is grounded,
for any `dt > 0`; the landing platform is the first qualifying platform in
the list's iteration order. -/
theorem update_swept_landing (s : Player) (dt wh : ℚ) (l1 l2 : List Platform) (q : Platform)
    (hdead : s.isDead = false) (hair : s.isOnGround = false) (hdt : 0 < dt)
    (hmiss : ∀ p ∈ l1, ¬ Player.landCheck s.bottom (Player.integrate dt s) p)
    (hhit : Player.landCheck s.bottom (Player.integrate dt s) q) :
    (Player.update dt (l1 ++ q :: l2) wh s).worldY = q.top - s.height
    ∧ (Player.update dt (l1 ++ q :: l2) wh s).vx = 0
    ∧ (Player.update dt (l1 ++ q :: l2) wh s).vy = 0
    ∧ (Player.update dt (l1 ++ q :: l2) wh s).isOnGround = true := by
  obtain ⟨x, y, w, h, vxx, vyy, g, d, ch, ct⟩ := s
  dsimp only at hdead hair hmiss hhit ⊢
  subst hdead
  subst hair
  have hvy : (0 : ℚ) ≤
      (Player.integrate dt ⟨x, y, w, h, vxx, vyy, false, false, ch, ct⟩).vy := by
    have h2 : q.top ≤ (Player.integrate dt ⟨x, y, w, h, vxx, vyy, false, false, ch, ct⟩).bottom :=
      hhit.2.2
    have h3 : (Player.integrate dt ⟨x, y, w, h, vxx, vyy, false, false, ch, ct⟩).bottom
        = (y + h) + (vyy + Player.gravity * dt) * dt := by
      simp only [Player.integrate, Player.bottom]
      ring
    have h1 : (y + h : ℚ) ≤ q.top := hhit.2.1
    have h4 : 0 ≤ (vyy + Player.gravity * dt) * dt := by
      rw [h3] at h2
      linarith
    show (0 : ℚ) ≤ vyy + Player.gravity * dt
    exact (mul_nonneg_iff_of_pos_right hdt).mp h4
  have hfinal : ∀ t : Player, t.worldY = q.top - h → t.vx = 0 → t.vy = 0 →
      t.isOnGround = true →
      (if t.worldY > wh + 100 then { t with isDead := true } else t).worldY = q.top - h
      ∧ (if t.worldY > wh + 100 then { t with isDead := true } else t).vx = 0
      ∧ (if t.worldY > wh + 100 then { t with isDead := true } else t).vy = 0
      ∧ (if t.worldY > wh + 100 then { t with isDead := true } else t).isOnGround = true := by
    intro t h1 h2 h3 h4
    split <;> exact ⟨h1, h2, h3, h4⟩
  cases ch with
  | false =>
    have hscan := collideScan_first
      (Player.bottom ⟨x, y, w, h, vxx, vyy, false, false, false, ct⟩)
      (Player.integrate dt ⟨x, y, w, h, vxx, vyy, false, false, false, ct⟩) l1 l2 q hmiss hhit
    have hupd : Player.update dt (l1 ++ q :: l2) wh ⟨x, y, w, h, vxx, vyy, false, false, false, ct⟩
        = (if (Player.collideScan
                 (Player.bottom ⟨x, y, w, h, vxx, vyy, false, false, false, ct⟩)
                 (Player.integrate dt ⟨x, y, w, h, vxx, vyy, false, false, false, ct⟩)
                 (l1 ++ q :: l2)).worldY > wh + 100
           then { Player.collideScan
                    (Player.bottom ⟨x, y, w, h, vxx, vyy, false, false, false, ct⟩)
                    (Player.integrate dt ⟨x, y, w, h, vxx, vyy, false, false, false, ct⟩)
                    (l1 ++ q :: l2) with isDead := true }
           else Player.collideScan
                  (Player.bottom ⟨x, y, w, h, vxx, vyy, false, false, false, ct⟩)
                  (Player.integrate dt ⟨x, y, w, h, vxx, vyy, false, false, false, ct⟩)
                  (l1 ++ q :: l2)) := by
      simp [Player.update, hvy]
    rw [hupd, hscan]
    exact hfinal _ rfl rfl rfl rfl
  | true =>
    have hvy1 : (0 : ℚ) ≤
        (Player.integrate dt ⟨x, y, w, h, vxx, vyy, false, false, true, ct + dt⟩).vy := hvy
    have hscan := collideScan_first
      (Player.bottom ⟨x, y, w, h, vxx, vyy, false, false, true, ct + dt⟩)
      (Player.integrate dt ⟨x, y, w, h, vxx, vyy, false, false, true, ct + dt⟩) l1 l2 q hmiss hhit
    have hupd : Player.update dt (l1 ++ q :: l2) wh ⟨x, y, w, h, vxx, vyy, false, false, true, ct⟩
        = (if (Player.collideScan
                 (Player.bottom ⟨x, y, w, h, vxx, vyy, false, false, true, ct + dt⟩)
                 (Player.integrate dt ⟨x, y, w, h, vxx, vyy, false, false, true, ct + dt⟩)
                 (l1 ++ q :: l2)).worldY > wh + 100
           then { Player.collideScan
                    (Player.bottom ⟨x, y, w, h, vxx, vyy, false, false, true, ct + dt⟩)
                    (Player.integrate dt ⟨x, y, w, h, vxx, vyy, false, false, true, ct + dt⟩)
                    (l1 ++ q :: l2) with isDead := true }
           else Player.collideScan
                  (Player.bottom ⟨x, y, w, h, vxx, vyy, false, false, true, ct + dt⟩)
                  (Player.integrate dt ⟨x, y, w, h, vxx, vyy, false, false, true, ct + dt⟩)
                  (l1 ++ q :: l2)) := by
      simp [Player.update, hvy1]
    rw [hupd, hscan]
    exact hfinal _ rfl rfl rfl rfl

/-- C1 witness: with `dt = 1` a player falling from bottom edge 48 tunnels
to bottom edge 1448, yet lands exactly on the platform top at 500, ending at
`worldY = 452` with zero velocity, grounded. -/
theorem update_swept_landing_witness :
    (Player.update 1 [⟨50, 500, 144, 16, false⟩] 10000
        ⟨0, 0, 32, 48, 100, 0, false, false, false, 0⟩).worldY = 452
    ∧ (Player.update 1 [⟨50, 500, 144, 16, false⟩] 10000
        ⟨0, 0, 32, 48, 100, 0, false, false, false, 0⟩).vx = 0
    ∧ (Player.update 1 [⟨50, 500, 144, 16, false⟩] 10000
        ⟨0, 0, 32, 48, 100, 0, false, false, false, 0⟩).vy = 0
    ∧ (Player.update 1 [⟨50, 500, 144, 16, false⟩] 10000
        ⟨0, 0, 32, 48, 100, 0, false, false, false, 0⟩).isOnGround = true := by
  have h := update_swept_landing ⟨0, 0, 32, 48, 100, 0, false, false, false, 0⟩ 1 10000
    [] [] ⟨50, 500, 144, 16, false⟩ rfl rfl (by norm_num)
    (by intro p hp; simp at hp)
    (by
      norm_num [Player.landCheck, Player.integrate, Platform.left, Platform.right,
        Platform.top, Player.left, Player.right, Player.bottom, Player.gravity])
  norm_num [Platform.top] at h
  exact h

/-- C4 witness: instantiating the dead-zone and no-signal clauses at the
configured thresholds with the in-band value 1.5 and the closed state. -/
theorem gestureDecoder_hysteresis_witness :
    (gestureRun 1 (5 / 2) false
          [some (3 / 2), some (1 / 2), some (1 / 2), some (6 / 5), some (13 / 5)]).1
        = [none, some GEvent.press, none, none, some GEvent.release]
    ∧ gestureStep 1 (5 / 2) true (some (3 / 2)) = (true, none)
    ∧ gestureStep 1 (5 / 2) true none = (true, none) :=
  ⟨gestureDecoder_hysteresis.1,
   gestureDecoder_hysteresis.2.1 1 (5 / 2) (3 / 2) true (by norm_num) (by norm_num),
   gestureDecoder_hysteresis.2.2 1 (5 / 2) true⟩

/-- `_spawnNext` never empties the platform list. -/
theorem spawnNext_ne_nil (cfg : PMConfig) (r1 r2 : ℚ) (ps : List Platform) (h : ps ≠ []) :
    PlatformManager.spawnNext cfg r1 r2 ps ≠ [] := by
  unfold PlatformManager.spawnNext
  cases hls : ps.getLast? with
  | none => exact h
  | some last => simp

/-- Iterated `_spawnNext` never empties the platform list. -/
theorem spawnN_ne_nil (cfg : PMConfig) (rs : ℕ → ℚ × ℚ) (k : ℕ) (ps : List Platform)
    (h : ps ≠ []) : PlatformManager.spawnN cfg rs k ps ≠ [] := by
  induction k generalizing rs ps with
  | zero => exact h
  | succ n ih =>
    exact ih _ _ (spawnNext_ne_nil cfg (rs 0).1 (rs 0).2 ps h)

/-- C7: horizon invariant — any completed `update(camera)` call of the
platform manager leaves the last platform's left edge at or beyond
`camera.x + visibleWorldWidth` (the spawn loop only stops 600 world units
past that line). -/
theorem platformField_horizon (m : PlatformManager.PMState) (cam : Camera)
    (rs : ℕ → ℚ × ℚ) (result : List Platform)
    (_hne : m.platforms ≠ []) (h : PlatformManager.updateRel m cam rs result) :
    ∃ q : Platform, result.getLast? = some q
      ∧ cam.x + m.canvasWidth / cam.scale ≤ q.worldX := by
  obtain ⟨hpruned, k, hres, hstop, -⟩ := h
  have hresne : result ≠ [] := by
    rw [hres]
    exact spawnN_ne_nil _ _ _ _ hpruned
  have hsome : result.getLast?.isSome := List.getLast?_isSome.mpr hresne
  obtain ⟨q, hq⟩ := Option.isSome_iff_exists.mp hsome
  refine ⟨q, hq, ?_⟩
  have hlx : PlatformManager.lastX result = q.worldX := by
    unfold PlatformManager.lastX
    rw [hq]
    rfl
  rw [← hres] at hstop
  rw [hlx] at hstop
  have := not_lt.mp hstop
  linarith

/-- C7 witness: from the seeded state (800×700 canvas, scale 1, starter
platform at x = 80) with the camera at the origin and all draws 0, the spawn
loop stops after four spawns with the last platform at x = 1432 ≥ 800. -/
theorem platformField_horizon_witness :
    ∃ q : Platform,
      (PlatformManager.spawnN ⟨144, 16, 176, 320, -105, 105, 574, 84⟩ (fun _ => (0, 0)) 4
          [⟨80, 574, 216, 16, false⟩]).getLast? = some q
      ∧ (0 : ℚ) + 800 / 1 ≤ q.worldX := by
  have hfilter : List.filter (fun p => decide ((0 : ℚ) - 200 < p.right))
      [(⟨80, 574, 216, 16, false⟩ : Platform)] = [⟨80, 574, 216, 16, false⟩] := by
    norm_num [List.filter, Platform.right]
  have h := platformField_horizon
    ⟨800, 700, ⟨144, 16, 176, 320, -105, 105, 574, 84⟩, [⟨80, 574, 216, 16, false⟩]⟩
    ⟨800, 700, 1, 240, 0, 0⟩ (fun _ => (0, 0))
    (PlatformManager.spawnN ⟨144, 16, 176, 320, -105, 105, 574, 84⟩ (fun _ => (0, 0)) 4
      [⟨80, 574, 216, 16, false⟩])
    (by simp)
    (by
      refine ⟨by rw [hfilter]; simp, 4, by rw [hfilter], ?_, ?_⟩
      · rw [hfilter]
        norm_num [PlatformManager.spawnN, PlatformManager.spawnNext,
          PlatformManager.newPlatform, PlatformManager.lastX, Platform.right, List.getLast?]
      · rw [hfilter]
        intro j hj
        interval_cases j <;>
          norm_num [PlatformManager.spawnN, PlatformManager.spawnNext,
            PlatformManager.newPlatform, PlatformManager.lastX, Platform.right, List.getLast?])
  exact h

/-- Rounding (as `ℚ`-cast) is monotone. -/
theorem round_cast_mono {a b : ℚ} (hab : a ≤ b) :
    ((round a : ℤ) : ℚ) ≤ ((round b : ℤ) : ℚ) := by
  have : round a ≤ round b := by
    rw [round_eq, round_eq]
    exact Int.floor_le_floor (by linarith)
  exact_mod_cast this

/-- Rounding a nonnegative rational is nonnegative. -/
theorem round_cast_nonneg {a : ℚ} (ha : 0 ≤ a) : (0 : ℚ) ≤ ((round a : ℤ) : ℚ) := by
  have : (0 : ℤ) ≤ round a := by
    rw [round_eq]
    exact Int.le_floor.mpr (by push_cast; linarith)
  exact_mod_cast this

/-- Geometry of a single `_spawnNext` platform over any config whose derived
bounds are ordered. -/
theorem newPlatform_spec (cfg : PMConfig) (last : Platform) (r1 r2 : ℚ)
    (hX : cfg.minGapX ≤ cfg.maxGapX) (hY : cfg.minGapY ≤ cfg.maxGapY)
    (hF : cfg.minY ≤ cfg.floorY)
    (hr1 : 0 ≤ r1) (hr1' : r1 < 1) (hr2 : 0 ≤ r2) (hr2' : r2 < 1) :
    (cfg.minGapX ≤ (PlatformManager.newPlatform cfg last r1 r2).worldX - last.right
      ∧ (PlatformManager.newPlatform cfg last r1 r2).worldX - last.right ≤ cfg.maxGapX)
    ∧ (PlatformManager.newPlatform cfg last r1 r2).worldY
        = max cfg.minY (min cfg.floorY
            (last.worldY + (cfg.minGapY + r2 * (cfg.maxGapY - cfg.minGapY))))
    ∧ (cfg.minGapY ≤ cfg.minGapY + r2 * (cfg.maxGapY - cfg.minGapY)
      ∧ cfg.minGapY + r2 * (cfg.maxGapY - cfg.minGapY) ≤ cfg.maxGapY)
    ∧ (cfg.minY ≤ (PlatformManager.newPlatform cfg last r1 r2).worldY
      ∧ (PlatformManager.newPlatform cfg last r1 r2).worldY ≤ cfg.floorY)
    ∧ (0 < cfg.minGapX → last.right < (PlatformManager.newPlatform cfg last r1 r2).worldX) := by
  have hgx1 : 0 ≤ r1 * (cfg.maxGapX - cfg.minGapX) :=
    mul_nonneg hr1 (sub_nonneg.mpr hX)
  have hgx2 : r1 * (cfg.maxGapX - cfg.minGapX) ≤ cfg.maxGapX - cfg.minGapX :=
    mul_le_of_le_one_left (sub_nonneg.mpr hX) (le_of_lt hr1')
  have hgy1 : 0 ≤ r2 * (cfg.maxGapY - cfg.minGapY) :=
    mul_nonneg hr2 (sub_nonneg.mpr hY)
  have hgy2 : r2 * (cfg.maxGapY - cfg.minGapY) ≤ cfg.maxGapY - cfg.minGapY :=
    mul_le_of_le_one_left (sub_nonneg.mpr hY) (le_of_lt hr2')
  refine ⟨⟨?_, ?_⟩, ?_, ⟨by linarith, by linarith⟩, ⟨?_, ?_⟩, ?_⟩
  · simp only [PlatformManager.newPlatform]
    linarith
  · simp only [PlatformManager.newPlatform]
    linarith
  · simp only [PlatformManager.newPlatform]
  · simp only [PlatformManager.newPlatform]
    exact le_max_left _ _
  · simp only [PlatformManager.newPlatform]
    exact max_le hF (min_le_left _ _)
  · intro hpos
    simp only [PlatformManager.newPlatform]
    linarith

/-- C9: spawn geometry — with the config derived from any canvas and
positive visible world, `_spawnNext` appends one platform whose left edge is
the previous right edge plus a gap in `[minGapX, maxGapX]`, whose top is the
previous top plus a gap in `[minGapY, maxGapY]` clamped into
`[minY, floorY]`; the top stays within the ceiling/floor band, and with
`minGapX > 0` the new platform starts strictly right of the previous one. -/
theorem spawnNext_geometry (cw ch camScale r1 r2 : ℚ) (ps : List Platform) (last : Platform)
    (hW : 0 ≤ cw / camScale) (hH : 0 ≤ ch / camScale)
    (hlast : ps.getLast? = some last)
    (hr1 : 0 ≤ r1) (hr1' : r1 < 1) (hr2 : 0 ≤ r2) (hr2' : r2 < 1) :
    PlatformManager.spawnNext (PlatformManager.mkConfig cw ch camScale) r1 r2 ps
        = ps ++ [PlatformManager.newPlatform (PlatformManager.mkConfig cw ch camScale) last r1 r2]
    ∧ ((PlatformManager.mkConfig cw ch camScale).minGapX
          ≤ (PlatformManager.newPlatform (PlatformManager.mkConfig cw ch camScale) last r1 r2).worldX
              - last.right
      ∧ (PlatformManager.newPlatform (PlatformManager.mkConfig cw ch camScale) last r1 r2).worldX
              - last.right
          ≤ (PlatformManager.mkConfig cw ch camScale).maxGapX)
    ∧ (PlatformManager.newPlatform (PlatformManager.mkConfig cw ch camScale) last r1 r2).worldY
        = max (PlatformManager.mkConfig cw ch camScale).minY
            (min (PlatformManager.mkConfig cw ch camScale).floorY
              (last.worldY + ((PlatformManager.mkConfig cw ch camScale).minGapY
                + r2 * ((PlatformManager.mkConfig cw ch camScale).maxGapY
                  - (PlatformManager.mkConfig cw ch camScale).minGapY))))
    ∧ ((PlatformManager.mkConfig cw ch camScale).minY
          ≤ (PlatformManager.newPlatform (PlatformManager.mkConfig cw ch camScale) last r1 r2).worldY
      ∧ (PlatformManager.newPlatform (PlatformManager.mkConfig cw ch camScale) last r1 r2).worldY
          ≤ (PlatformManager.mkConfig cw ch camScale).floorY)
    ∧ (0 < (PlatformManager.mkConfig cw ch camScale).minGapX →
        last.right
          < (PlatformManager.newPlatform (PlatformManager.mkConfig cw ch camScale) last r1 r2).worldX) := by
  have hX : (PlatformManager.mkConfig cw ch camScale).minGapX
      ≤ (PlatformManager.mkConfig cw ch camScale).maxGapX := by
    simp only [PlatformManager.mkConfig]
    exact round_cast_mono (mul_le_mul_of_nonneg_left (by norm_num) hW)
  have hYr : (0 : ℚ) ≤ ((round (ch / camScale * (15 / 100)) : ℤ) : ℚ) :=
    round_cast_nonneg (mul_nonneg hH (by norm_num))
  have hY : (PlatformManager.mkConfig cw ch camScale).minGapY
      ≤ (PlatformManager.mkConfig cw ch camScale).maxGapY := by
    simp only [PlatformManager.mkConfig]
    linarith
  have hF : (PlatformManager.mkConfig cw ch camScale).minY
      ≤ (PlatformManager.mkConfig cw ch camScale).floorY := by
    simp only [PlatformManager.mkConfig]
    exact round_cast_mono (mul_le_mul_of_nonneg_left (by norm_num) hH)
  have hspec := newPlatform_spec (PlatformManager.mkConfig cw ch camScale) last r1 r2
    hX hY hF hr1 hr1' hr2 hr2'
  refine ⟨?_, hspec.1, hspec.2.1, hspec.2.2.2.1, hspec.2.2.2.2⟩
  unfold PlatformManager.spawnNext
  rw [hlast]

/-- C9 witness: on the seeded 800×700 world (scale 1) with draws
`(0, 1/2)`, `_spawnNext` appends exactly one platform off the starter
platform and its top stays inside the `[84, 574]` band. -/
theorem spawnNext_geometry_witness :
    PlatformManager.spawnNext (PlatformManager.mkConfig 800 700 1) 0 (1 / 2)
        [⟨80, 574, 216, 16, false⟩]
      = [⟨80, 574, 216, 16, false⟩,
         PlatformManager.newPlatform (PlatformManager.mkConfig 800 700 1)
           ⟨80, 574, 216, 16, false⟩ 0 (1 / 2)]
    ∧ ((PlatformManager.mkConfig 800 700 1).minY
        ≤ (PlatformManager.newPlatform (PlatformManager.mkConfig 800 700 1)
            ⟨80, 574, 216, 16, false⟩ 0 (1 / 2)).worldY
      ∧ (PlatformManager.newPlatform (PlatformManager.mkConfig 800 700 1)
            ⟨80, 574, 216, 16, false⟩ 0 (1 / 2)).worldY
        ≤ (PlatformManager.mkConfig 800 700 1).floorY) := by
  have h := spawnNext_geometry 800 700 1 0 (1 / 2) [⟨80, 574, 216, 16, false⟩]
    ⟨80, 574, 216, 16, false⟩ (by norm_num) (by norm_num) rfl
    (by norm_num) (by norm_num) (by norm_num) (by norm_num)
  exact ⟨h.1, h.2.2.2.1⟩

/-- C3 counterexample: with the configured constants the max-charge range is
`700 · (2·880/1400) = 880`, which exceeds `maxGapX + platformWidth =
320 + 144 = 464` (derived at the design canvas 800×600, scale 1), so the
claimed upper half of the reachability contract is false. -/
theorem reachability_contract_counterexample :
    ¬ (Player.jumpRange Player.minVx Player.minVy Player.gravity
          ≥ (PlatformManager.mkConfig 800 600 (800 / 800)).minGapX
        ∧ Player.jumpRange Player.maxVx Player.maxVy Player.gravity
          ≤ (PlatformManager.mkConfig 800 600 (800 / 800)).maxGapX
            + (PlatformManager.mkConfig 800 600 (800 / 800)).platformWidth) := by
  intro hcl
  have h2 := hcl.2
  norm_num [Player.jumpRange, Player.maxVx, Player.maxVy, Player.gravity,
    PlatformManager.mkConfig, round_eq] at h2

/-- C3 amended: for every canvas, the minimum-charge range `1300/7 ≈ 185.7`
clears `minGapX = 176`, but the maximum-charge range `880` strictly exceeds
`maxGapX + platformWidth = 464` — over-charging always overshoots the
farthest reachable platform (matching the code's "falls into the void if
over-charged" comment). -/
theorem reachability_contract_amended (cw ch : ℚ) (hcw : cw ≠ 0) :
    (PlatformManager.mkConfig cw ch (cw / 800)).minGapX
        ≤ Player.jumpRange Player.minVx Player.minVy Player.gravity
    ∧ (PlatformManager.mkConfig cw ch (cw / 800)).maxGapX
        + (PlatformManager.mkConfig cw ch (cw / 800)).platformWidth
      < Player.jumpRange Player.maxVx Player.maxVy Player.gravity := by
  have hW : cw / (cw / 800) = (800 : ℚ) := by
    field_simp
  constructor <;>
    norm_num [PlatformManager.mkConfig, hW, Player.jumpRange, Player.minVx, Player.minVy,
      Player.maxVx, Player.maxVy, Player.gravity, round_eq]

/-- C3 amended witness: the contract halves evaluated at the 800×600 design
canvas. -/
theorem reachability_contract_amended_witness :
    (PlatformManager.mkConfig 800 600 (800 / 800)).minGapX
        ≤ Player.jumpRange Player.minVx Player.minVy Player.gravity
    ∧ (PlatformManager.mkConfig 800 600 (800 / 800)).maxGapX
        + (PlatformManager.mkConfig 800 600 (800 / 800)).platformWidth
      < Player.jumpRange Player.maxVx Player.maxVy Player.gravity :=
  reachability_contract_amended 800 600 (by norm_num)

end TreasureGym
